import Mathlib

/-!
Verification of the terraform-provider-aws excerpt against its
natural-language specification.

The development shallowly embeds the relevant Go functions:

1. The WAF change-token retry protocol (the retryer exposing
   RetryWithToken).  Its implementation is not part of the excerpted
   sources (only the acceptance test that calls it is), so it is
   modelled from the specification text (spec sections 4.1 and 7).
2. resourceFleetUpdate and resourceFleetDelete from
   internal/service/appstream/fleet.go.
3. statusCertificate, waitCertificateIssued, resourceCertificateDelete,
   isChangeNormalizeCertRemoval and stripCR from
   internal/service/acm/certificate.go, with an executable SHA-1.
4. dataSourceTaskExecutionRead from
   internal/service/ecs/task_execution_data_source.go.
-/

namespace TfAws

/-! ### The change-token retryer, modelled from the spec -/

/-- Modelled from the spec: the error taxonomy of section 7.  Stale-token,
concurrent-modification and not-yet-propagated failures are retryable;
everything else is fatal. -/
inductive WafErr where
  | staleToken
  | concurrentModification
  | notPropagated
  | permissionDenied
  | validationFailed (msg : String)
  | otherFailure (msg : String)
deriving DecidableEq, Repr

/-- Modelled from the spec: classification of an error as retryable. -/
def WafErr.retryable : WafErr → Bool
  | .staleToken => true
  | .concurrentModification => true
  | .notPropagated => true
  | _ => false

/-- Result of one token fetch: a fresh token or an error. -/
inductive FetchResult where
  | ok (token : String)
  | fetchErr (e : WafErr)
deriving DecidableEq, Repr

/-- Result of one invocation of the caller-supplied operation. -/
inductive OpResult (α : Type) where
  | ok (v : α)
  | opErr (e : WafErr)
deriving DecidableEq, Repr

/-- The environment of one attempt: what the token fetch returns, what the
operation returns for a given token, and whether the surrounding context is
canceled during the backoff wait that follows this attempt (if any). -/
structure Attempt (α : Type) where
  fetch : FetchResult
  op : String → OpResult α
  canceledInWait : Bool

/-- Terminal outcomes of RetryWithToken, from spec section 4.1: success,
fatal (non-retryable) error, timeout wrapping the last retryable error,
or context cancellation. -/
inductive RWTOutcome (α : Type) where
  | success (v : α)
  | fatal (e : WafErr)
  | timeout (last : WafErr)
  | canceled
deriving DecidableEq, Repr

/-- An outcome together with the number of token fetches and of operation
invocations performed. -/
structure RWTResult (α : Type) where
  outcome : RWTOutcome α
  fetches : Nat
  invocations : Nat
deriving DecidableEq, Repr

/-- Classification of a single attempt: either the loop terminates with an
outcome, or the attempt failed retryably and the loop wants to wait and
retry.  The Boolean records whether the operation was invoked during the
attempt (it is not when the token fetch itself fails). -/
inductive StepResult (α : Type) where
  | done (r : RWTOutcome α) (opRan : Bool)
  | retry (e : WafErr) (opRan : Bool)

/-- Modelled from the spec (section 4.1, steps 1-5): one fetch-and-call
cycle.  A fetch error is fatal unless itself retryable; an operation
success terminates; a retryable operation error asks for a retry; any
other operation error is fatal. -/
def attemptStep {α : Type} (a : Attempt α) : StepResult α :=
  match a.fetch with
  | .fetchErr e => if e.retryable then .retry e false else .done (.fatal e) false
  | .ok tok =>
    match a.op tok with
    | .ok v => .done (.success v) true
    | .opErr e => if e.retryable then .retry e true else .done (.fatal e) true

/-- Modelled from the spec: the retry loop of RetryWithToken.  The
implementation of the retryer is not among the excerpted source files
(only the WAF acceptance test calling it is), so the loop is a direct
transcription of spec section 4.1.  `budget` is the remaining number of
backoff waits the duration budget still allows; when a retryable failure
occurs with no budget left the loop returns a timeout wrapping that last
error; when the context is canceled during the wait the loop returns the
cancellation outcome.  `i` is the attempt index, `f` and `n` accumulate
fetch and invocation counts. -/
def retryGo {α : Type} (attempts : Nat → Attempt α) : Nat → Nat → Nat → Nat → RWTResult α
  | 0, i, f, n =>
    match attemptStep (attempts i) with
    | .done r opRan => ⟨r, f + 1, n + (if opRan then 1 else 0)⟩
    | .retry e opRan => ⟨.timeout e, f + 1, n + (if opRan then 1 else 0)⟩
  | budget + 1, i, f, n =>
    match attemptStep (attempts i) with
    | .done r opRan => ⟨r, f + 1, n + (if opRan then 1 else 0)⟩
    | .retry _ opRan =>
      if (attempts i).canceledInWait then
        ⟨.canceled, f + 1, n + (if opRan then 1 else 0)⟩
      else
        retryGo attempts budget (i + 1) (f + 1) (n + (if opRan then 1 else 0))

/-- Modelled from the spec: RetryWithToken over an oracle describing each
attempt, with a duration budget allowing `budget` backoff waits. -/
def retryWithToken {α : Type} (budget : Nat) (attempts : Nat → Attempt α) : RWTResult α :=
  retryGo attempts budget 0 0 0

/-- An attempt whose token fetch succeeds and whose operation fails with a
stale-token error, without context cancellation during the ensuing wait. -/
def staleAttempt {α : Type} (a : Attempt α) : Prop :=
  ∃ tok, a.fetch = .ok tok ∧ a.op tok = .opErr .staleToken ∧ a.canceledInWait = false

/-- An attempt whose token fetch succeeds and whose operation succeeds
with value `v`. -/
def succeedsWith {α : Type} (a : Attempt α) (v : α) : Prop :=
  ∃ tok, a.fetch = .ok tok ∧ a.op tok = .ok v

lemma attemptStep_stale {α : Type} {a : Attempt α} (h : staleAttempt a) :
    attemptStep a = .retry .staleToken true := by
  obtain ⟨tok, hf, hop, _⟩ := h
  simp [attemptStep, hf, hop, WafErr.retryable]

lemma attemptStep_success {α : Type} {a : Attempt α} {v : α} (h : succeedsWith a v) :
    attemptStep a = .done (.success v) true := by
  obtain ⟨tok, hf, hop⟩ := h
  simp [attemptStep, hf, hop]

lemma retryGo_stale_then_success {α : Type} (attempts : Nat → Attempt α) (v : α) :
    ∀ N budget i f n, N ≤ budget →
      (∀ j, j < N → staleAttempt (attempts (i + j))) →
      succeedsWith (attempts (i + N)) v →
      retryGo attempts budget i f n = ⟨.success v, f + N + 1, n + N + 1⟩ := by
  intro N
  induction N with
  | zero =>
    intro budget i f n _ _ hsucc
    have hstep : attemptStep (attempts i) = .done (.success v) true := by
      simpa using attemptStep_success hsucc
    cases budget with
    | zero => simp [retryGo, hstep]
    | succ b => simp [retryGo, hstep]
  | succ N ih =>
    intro budget i f n hle hstale hsucc
    obtain ⟨b, rfl⟩ : ∃ b, budget = b + 1 := by
      cases budget with
      | zero => exact absurd hle (by omega)
      | succ b => exact ⟨b, rfl⟩
    have hstale0 : staleAttempt (attempts i) := by
      simpa using hstale 0 (Nat.succ_pos N)
    have hstep : attemptStep (attempts i) = .retry .staleToken true :=
      attemptStep_stale hstale0
    have hcancel : (attempts i).canceledInWait = false := by
      obtain ⟨tok, _, _, hc⟩ := hstale0
      exact hc
    have hrec := ih b (i + 1) (f + 1) (n + 1) (by omega)
      (fun j hj => by
        have := hstale (j + 1) (by omega)
        simpa [Nat.add_assoc, Nat.add_comm 1 j] using this)
      (by
        have : i + 1 + N = i + (N + 1) := by omega
        simpa [this] using hsucc)
    simp only [retryGo, hstep, hcancel, if_true, if_false, Bool.false_eq_true]
    rw [hrec]
    have h1 : f + 1 + N + 1 = f + (N + 1) + 1 := by omega
    have h2 : n + 1 + N + 1 = n + (N + 1) + 1 := by omega
    rw [h1, h2]

/-- Claim C1: for every sequence of N consecutive stale-token (retryable)
failures followed by one success, with N within the time budget,
RetryWithToken returns the success result of the final attempt and
performs exactly N+1 token fetches and N+1 operation invocations. -/
theorem retryWithToken_consecutive_stale_then_success {α : Type}
    (attempts : Nat → Attempt α) (v : α) (N budget : Nat)
    (hbudget : N ≤ budget)
    (hstale : ∀ j, j < N → staleAttempt (attempts j))
    (hsucc : succeedsWith (attempts N) v) :
    retryWithToken budget attempts = ⟨.success v, N + 1, N + 1⟩ := by
  have h := retryGo_stale_then_success attempts v N budget 0 0 0 hbudget
    (fun j hj => by simpa using hstale j hj) (by simpa using hsucc)
  simpa [retryWithToken] using h

/-- Concrete scenario for claim C1: two stale-token failures, then
success on the third attempt. -/
def c1Attempts : Nat → Attempt Nat := fun j =>
  if j < 2 then ⟨.ok "tokA", fun _ => .opErr .staleToken, false⟩
  else ⟨.ok "tokB", fun _ => .ok 7, false⟩

theorem retryWithToken_consecutive_stale_then_success_witness :
    retryWithToken 2 c1Attempts = ⟨.success 7, 3, 3⟩ :=
  retryWithToken_consecutive_stale_then_success c1Attempts 7 2 2 (Nat.le_refl 2)
    (fun j hj => ⟨"tokA", by simp [c1Attempts, hj], by simp [c1Attempts, hj],
      by simp [c1Attempts, hj]⟩)
    ⟨"tokB", by simp [c1Attempts], by simp [c1Attempts]⟩

/-- Claim C2: a fatal (non-retryable) error from the operation is returned
immediately, after exactly one token fetch and one operation invocation;
it is never retried. -/
theorem retryWithToken_fatal_no_retry {α : Type}
    (attempts : Nat → Attempt α) (budget : Nat) (tok : String) (e : WafErr)
    (hf : (attempts 0).fetch = .ok tok)
    (hop : (attempts 0).op tok = .opErr e)
    (hfatal : e.retryable = false) :
    retryWithToken budget attempts = ⟨.fatal e, 1, 1⟩ := by
  have hstep : attemptStep (attempts 0) = .done (.fatal e) true := by
    simp [attemptStep, hf, hop, hfatal]
  cases budget with
  | zero => simp [retryWithToken, retryGo, hstep]
  | succ b => simp [retryWithToken, retryGo, hstep]

def c2Attempts : Nat → Attempt Nat := fun _ =>
  ⟨.ok "tokC", fun _ => .opErr .permissionDenied, false⟩

theorem retryWithToken_fatal_no_retry_witness :
    retryWithToken 5 c2Attempts = ⟨.fatal .permissionDenied, 1, 1⟩ :=
  retryWithToken_fatal_no_retry c2Attempts 5 "tokC" .permissionDenied
    (by simp [c2Attempts]) (by simp [c2Attempts]) (by simp [WafErr.retryable])

/-- An attempt whose token fetch succeeds and whose operation fails with
the retryable error `e`, without context cancellation during the ensuing
wait. -/
def retryableFails {α : Type} (a : Attempt α) (e : WafErr) : Prop :=
  ∃ tok, a.fetch = .ok tok ∧ a.op tok = .opErr e ∧ e.retryable = true ∧
    a.canceledInWait = false

lemma attemptStep_retryable {α : Type} {a : Attempt α} {e : WafErr}
    (h : retryableFails a e) : attemptStep a = .retry e true := by
  obtain ⟨tok, hf, hop, hr, _⟩ := h
  simp [attemptStep, hf, hop, hr]

lemma retryGo_all_retryable_timeout {α : Type} (attempts : Nat → Attempt α)
    (errs : Nat → WafErr) :
    ∀ budget i f n,
      (∀ j, j ≤ budget → retryableFails (attempts (i + j)) (errs (i + j))) →
      retryGo attempts budget i f n =
        ⟨.timeout (errs (i + budget)), f + budget + 1, n + budget + 1⟩ := by
  intro budget
  induction budget with
  | zero =>
    intro i f n h
    have h0 : retryableFails (attempts i) (errs i) := by simpa using h 0 (Nat.le_refl 0)
    have hstep : attemptStep (attempts i) = .retry (errs i) true :=
      attemptStep_retryable h0
    simp [retryGo, hstep]
  | succ b ih =>
    intro i f n h
    have h0 : retryableFails (attempts i) (errs i) := by simpa using h 0 (by omega)
    have hstep : attemptStep (attempts i) = .retry (errs i) true :=
      attemptStep_retryable h0
    have hcancel : (attempts i).canceledInWait = false := by
      obtain ⟨tok, _, _, _, hc⟩ := h0
      exact hc
    have hrec := ih (i + 1) (f + 1) (n + 1)
      (fun j hj => by
        have := h (j + 1) (by omega)
        simpa [Nat.add_assoc, Nat.add_comm 1 j] using this)
    simp only [retryGo, hstep, hcancel, Bool.false_eq_true, if_false, if_true]
    rw [hrec]
    have h1 : i + 1 + b = i + (b + 1) := by omega
    have h2 : f + 1 + b + 1 = f + (b + 1) + 1 := by omega
    have h3 : n + 1 + b + 1 = n + (b + 1) + 1 := by omega
    rw [h1, h2, h3]

/-- Claim C3: when the duration budget is exhausted while the operation
keeps failing retryably, RetryWithToken returns a timeout outcome that
wraps the last retryable error actually encountered (the error of the
final attempt), not a generic retry-exhausted message. -/
theorem retryWithToken_timeout_wraps_last_error {α : Type}
    (attempts : Nat → Attempt α) (errs : Nat → WafErr) (budget : Nat)
    (h : ∀ j, j ≤ budget → retryableFails (attempts j) (errs j)) :
    retryWithToken budget attempts =
      ⟨.timeout (errs budget), budget + 1, budget + 1⟩ := by
  have hgo := retryGo_all_retryable_timeout attempts errs budget 0 0 0
    (fun j hj => by simpa using h j hj)
  simpa [retryWithToken] using hgo

/-- Concrete scenario for claim C3: a stale-token failure, then a
concurrent-modification failure that exhausts the budget; the timeout
wraps the concurrent-modification error, i.e. the last one seen. -/
def c3Attempts : Nat → Attempt Nat := fun j =>
  if j = 0 then ⟨.ok "tokD", fun _ => .opErr .staleToken, false⟩
  else ⟨.ok "tokE", fun _ => .opErr .concurrentModification, false⟩

def c3Errs : Nat → WafErr := fun j =>
  if j = 0 then .staleToken else .concurrentModification

theorem retryWithToken_timeout_wraps_last_error_witness :
    retryWithToken 1 c3Attempts = ⟨.timeout .concurrentModification, 2, 2⟩ :=
  retryWithToken_timeout_wraps_last_error c3Attempts c3Errs 1
    (fun j hj => by
      match j, hj with
      | 0, _ => exact ⟨"tokD", by simp [c3Attempts, c3Errs], by simp [c3Attempts, c3Errs],
          by simp [c3Errs, WafErr.retryable], by simp [c3Attempts]⟩
      | 1, _ => exact ⟨"tokE", by simp [c3Attempts, c3Errs], by simp [c3Attempts, c3Errs],
          by simp [c3Errs, WafErr.retryable], by simp [c3Attempts]⟩)

/-- Observable events of one RetryWithToken execution: a successful token
fetch, a failed token fetch, and an operation invocation with the token
it was handed. -/
inductive RetryEvent where
  | fetchTok (attempt : Nat) (token : String)
  | fetchFail (attempt : Nat)
  | invoke (attempt : Nat) (token : String)
deriving DecidableEq, Repr

/-- Modelled from the spec: the events of one attempt.  When the fetch
succeeds, the operation is invoked exactly once, immediately, with that
freshly fetched token; when the fetch fails no operation runs. -/
def attemptEvents {α : Type} (i : Nat) (a : Attempt α) : List RetryEvent :=
  match a.fetch with
  | .fetchErr _ => [.fetchFail i]
  | .ok tok => [.fetchTok i tok, .invoke i tok]

/-- Modelled from the spec: the full event trace of the retry loop,
mirroring the control flow of `retryGo`. -/
def traceGo {α : Type} (attempts : Nat → Attempt α) : Nat → Nat → List RetryEvent
  | 0, i => attemptEvents i (attempts i)
  | budget + 1, i =>
    match attemptStep (attempts i) with
    | .done _ _ => attemptEvents i (attempts i)
    | .retry _ _ =>
      if (attempts i).canceledInWait then attemptEvents i (attempts i)
      else attemptEvents i (attempts i) ++ traceGo attempts budget (i + 1)

/-- The event trace of a RetryWithToken execution. -/
def retryTrace {α : Type} (budget : Nat) (attempts : Nat → Attempt α) : List RetryEvent :=
  traceGo attempts budget 0

/-- Structural discipline of a retryer trace starting at attempt index
`i`: the trace is a sequence of per-attempt blocks with strictly
increasing attempt indices; a block is either a single failed fetch, or a
fetch immediately followed by the one invocation using that same token. -/
inductive TokenDiscipline : Nat → List RetryEvent → Prop where
  | nil (i : Nat) : TokenDiscipline i []
  | failBlock (i a : Nat) (rest : List RetryEvent) :
      i ≤ a → TokenDiscipline (a + 1) rest →
      TokenDiscipline i (.fetchFail a :: rest)
  | invokeBlock (i a : Nat) (t : String) (rest : List RetryEvent) :
      i ≤ a → TokenDiscipline (a + 1) rest →
      TokenDiscipline i (.fetchTok a t :: .invoke a t :: rest)

lemma tokenDiscipline_attemptEvents_append {α : Type} (i : Nat) (a : Attempt α)
    (rest : List RetryEvent) (h : TokenDiscipline (i + 1) rest) :
    TokenDiscipline i (attemptEvents i a ++ rest) := by
  cases hf : a.fetch with
  | fetchErr e =>
    simpa [attemptEvents, hf] using TokenDiscipline.failBlock i i rest (Nat.le_refl i) h
  | ok tok =>
    simpa [attemptEvents, hf] using
      TokenDiscipline.invokeBlock i i tok rest (Nat.le_refl i) h

lemma tokenDiscipline_attemptEvents {α : Type} (i : Nat) (a : Attempt α) :
    TokenDiscipline i (attemptEvents i a) := by
  have h := tokenDiscipline_attemptEvents_append i a [] (TokenDiscipline.nil (i + 1))
  simpa using h

lemma tokenDiscipline_traceGo {α : Type} (attempts : Nat → Attempt α) :
    ∀ budget i, TokenDiscipline i (traceGo attempts budget i) := by
  intro budget
  induction budget with
  | zero =>
    intro i
    simpa [traceGo] using tokenDiscipline_attemptEvents i (attempts i)
  | succ b ih =>
    intro i
    cases hstep : attemptStep (attempts i) with
    | done r opRan =>
      simpa [traceGo, hstep] using tokenDiscipline_attemptEvents i (attempts i)
    | retry e opRan =>
      cases hc : (attempts i).canceledInWait with
      | true =>
        simpa [traceGo, hstep, hc] using tokenDiscipline_attemptEvents i (attempts i)
      | false =>
        have h := tokenDiscipline_attemptEvents_append i (attempts i)
          (traceGo attempts b (i + 1)) (ih (i + 1))
        simpa [traceGo, hstep, hc] using h

lemma tokenDiscipline_head_not_invoke {i : Nat} {l : List RetryEvent}
    (h : TokenDiscipline i l) : ∀ a t, l[0]? ≠ some (RetryEvent.invoke a t) := by
  intro a t
  cases h <;> simp

lemma tokenDiscipline_invoke_attempt_ge {i : Nat} {l : List RetryEvent}
    (h : TokenDiscipline i l) :
    ∀ (k a : Nat) (t : String), l[k]? = some (RetryEvent.invoke a t) → i ≤ a := by
  induction h with
  | nil => intro k a t hk; simp at hk
  | failBlock i a0 rest hle hrest ih =>
    intro k a t hk
    cases k with
    | zero => simp at hk
    | succ m =>
      have : rest[m]? = some (RetryEvent.invoke a t) := by simpa using hk
      have := ih m a t this
      omega
  | invokeBlock i a0 t0 rest hle hrest ih =>
    intro k a t hk
    match k with
    | 0 => simp at hk
    | 1 =>
      simp at hk
      omega
    | m + 2 =>
      have : rest[m]? = some (RetryEvent.invoke a t) := by simpa using hk
      have := ih m a t this
      omega

lemma tokenDiscipline_invoke_prev {i : Nat} {l : List RetryEvent}
    (h : TokenDiscipline i l) :
    ∀ (k a : Nat) (t : String), l[k + 1]? = some (RetryEvent.invoke a t) →
      l[k]? = some (RetryEvent.fetchTok a t) := by
  induction h with
  | nil => intro k a t hk; simp at hk
  | failBlock i a0 rest hle hrest ih =>
    intro k a t hk
    cases k with
    | zero =>
      have h0 : rest[0]? = some (RetryEvent.invoke a t) := by simpa using hk
      exact absurd h0 (tokenDiscipline_head_not_invoke hrest a t)
    | succ m =>
      have hm : rest[m + 1]? = some (RetryEvent.invoke a t) := by simpa using hk
      have := ih m a t hm
      simpa using this
  | invokeBlock i a0 t0 rest hle hrest ih =>
    intro k a t hk
    match k with
    | 0 =>
      simp at hk
      simp [hk.1, hk.2]
    | 1 =>
      have h0 : rest[0]? = some (RetryEvent.invoke a t) := by simpa using hk
      exact absurd h0 (tokenDiscipline_head_not_invoke hrest a t)
    | m + 2 =>
      have hm : rest[m + 1]? = some (RetryEvent.invoke a t) := by simpa using hk
      have := ih m a t hm
      simpa using this

lemma tokenDiscipline_invoke_unique {i : Nat} {l : List RetryEvent}
    (h : TokenDiscipline i l) :
    ∀ (k₁ k₂ a : Nat) (t₁ t₂ : String), l[k₁]? = some (RetryEvent.invoke a t₁) →
      l[k₂]? = some (RetryEvent.invoke a t₂) → k₁ = k₂ := by
  induction h with
  | nil => intro k₁ k₂ a t₁ t₂ h₁ h₂; simp at h₁
  | failBlock i a0 rest hle hrest ih =>
    intro k₁ k₂ a t₁ t₂ h₁ h₂
    cases k₁ with
    | zero => simp at h₁
    | succ m₁ =>
      cases k₂ with
      | zero => simp at h₂
      | succ m₂ =>
        have hm₁ : rest[m₁]? = some (RetryEvent.invoke a t₁) := by simpa using h₁
        have hm₂ : rest[m₂]? = some (RetryEvent.invoke a t₂) := by simpa using h₂
        have := ih m₁ m₂ a t₁ t₂ hm₁ hm₂
        omega
  | invokeBlock i a0 t0 rest hle hrest ih =>
    intro k₁ k₂ a t₁ t₂ h₁ h₂
    match k₁, k₂ with
    | 0, _ => simp at h₁
    | _, 0 => simp at h₂
    | 1, 1 => rfl
    | 1, m + 2 =>
      have ha : a0 = a := by simp at h₁; omega
      have hm : rest[m]? = some (RetryEvent.invoke a t₂) := by simpa using h₂
      have := tokenDiscipline_invoke_attempt_ge hrest m a t₂ hm
      omega
    | m + 2, 1 =>
      have ha : a0 = a := by simp at h₂; omega
      have hm : rest[m]? = some (RetryEvent.invoke a t₁) := by simpa using h₁
      have := tokenDiscipline_invoke_attempt_ge hrest m a t₁ hm
      omega
    | m₁ + 2, m₂ + 2 =>
      have hm₁ : rest[m₁]? = some (RetryEvent.invoke a t₁) := by simpa using h₁
      have hm₂ : rest[m₂]? = some (RetryEvent.invoke a t₂) := by simpa using h₂
      have := ih m₁ m₂ a t₁ t₂ hm₁ hm₂
      omega

/-- Claim C5: token lifecycle of RetryWithToken.  In every execution
trace, (1) the trace never begins with an invocation, (2) every
invocation is immediately preceded by the token fetch of the same
attempt handing over exactly that token - so a token is fetched just
before the single invocation that uses it and is never persisted - and
(3) any two invocations of the same attempt coincide, so each fetched
token is held by at most one in-flight attempt and never reused. -/
theorem retryTrace_token_lifecycle {α : Type} (budget : Nat)
    (attempts : Nat → Attempt α) :
    (∀ a t, (retryTrace budget attempts)[0]? ≠ some (RetryEvent.invoke a t))
  ∧ (∀ (k a : Nat) (t : String), (retryTrace budget attempts)[k + 1]? = some (RetryEvent.invoke a t) →
      (retryTrace budget attempts)[k]? = some (RetryEvent.fetchTok a t))
  ∧ (∀ (k₁ k₂ a : Nat) (t₁ t₂ : String), (retryTrace budget attempts)[k₁]? = some (RetryEvent.invoke a t₁) →
      (retryTrace budget attempts)[k₂]? = some (RetryEvent.invoke a t₂) →
      k₁ = k₂ ∧ t₁ = t₂) := by
  have htd : TokenDiscipline 0 (retryTrace budget attempts) :=
    tokenDiscipline_traceGo attempts budget 0
  refine ⟨tokenDiscipline_head_not_invoke htd, tokenDiscipline_invoke_prev htd, ?_⟩
  intro k₁ k₂ a t₁ t₂ h₁ h₂
  have hk : k₁ = k₂ := tokenDiscipline_invoke_unique htd k₁ k₂ a t₁ t₂ h₁ h₂
  subst hk
  rw [h₁] at h₂
  exact ⟨rfl, by simpa using h₂⟩

def c5Attempts : Nat → Attempt Nat := fun _ => ⟨.ok "tokW", fun _ => .ok 1, false⟩

theorem retryTrace_token_lifecycle_witness :
    (retryTrace 0 c5Attempts)[0]? = some (RetryEvent.fetchTok 0 "tokW") :=
  (retryTrace_token_lifecycle 0 c5Attempts).2.1 0 0 "tokW" (by decide)

/-! ### AppStream fleet update and delete (internal/service/appstream/fleet.go) -/

/-- Which attributes of the aws_appstream_fleet resource have changed in
the plan, i.e. the values of d.HasChange for every updatable field of the
schema. -/
structure FleetChanges where
  description : Bool
  domainJoinInfo : Bool
  enableDefaultInternetAccess : Bool
  iamRoleArn : Bool
  instanceType : Bool
  maxUserDurationInSeconds : Bool
  streamView : Bool
  vpcConfig : Bool
  computeCapacity : Bool
  disconnectTimeoutInSeconds : Bool
  idleDisconnectTimeoutInSeconds : Bool
  displayName : Bool
  imageName : Bool
  imageArn : Bool
  maxSessionsPerInstance : Bool
deriving DecidableEq, Repr

/-- fleet.go line 419: d.HasChanges over description, domain_join_info,
enable_default_internet_access, iam_role_arn, instance_type,
max_user_duration_in_seconds, stream_view and vpc_config decides whether
the fleet must be stopped before the update. -/
def shouldStopFleet (c : FleetChanges) : Bool :=
  c.description || c.domainJoinInfo || c.enableDefaultInternetAccess || c.iamRoleArn ||
    c.instanceType || c.maxUserDurationInSeconds || c.streamView || c.vpcConfig

/-- The AWS calls resourceFleetUpdate can issue, in the order they appear
in the function body. -/
inductive FleetCall where
  | stopFleet
  | waitStopped
  | updateFleet
  | startFleet
  | waitRunning
deriving DecidableEq, Repr

/-- Success or failure of each remote call resourceFleetUpdate makes. -/
structure FleetUpdateEnv where
  stopOk : Bool
  waitStoppedOk : Bool
  updateOk : Bool
  startOk : Bool
  waitRunningOk : Bool
deriving DecidableEq, Repr

/-- fleet.go lines 410-516: resourceFleetUpdate.  If any of the eight
fields behind shouldStopFleet changed, the fleet is stopped and waited to
the stopped state before UpdateFleet; after a successful UpdateFleet with
that flag set the fleet is started again and waited to the running state.
Every remote-call error aborts with a diagnostic (modelled here as the
Boolean result component being false).  The returned list is the sequence
of remote calls issued. -/
def resourceFleetUpdate (c : FleetChanges) (env : FleetUpdateEnv) :
    List FleetCall × Bool :=
  if shouldStopFleet c then
    if env.stopOk = false then ([.stopFleet], false)
    else if env.waitStoppedOk = false then ([.stopFleet, .waitStopped], false)
    else if env.updateOk = false then
      ([.stopFleet, .waitStopped, .updateFleet], false)
    else if env.startOk = false then
      ([.stopFleet, .waitStopped, .updateFleet, .startFleet], false)
    else if env.waitRunningOk = false then
      ([.stopFleet, .waitStopped, .updateFleet, .startFleet, .waitRunning], false)
    else ([.stopFleet, .waitStopped, .updateFleet, .startFleet, .waitRunning], true)
  else
    if env.updateOk = false then ([.updateFleet], false)
    else ([.updateFleet], true)

/-- Claim C6: an AppStream fleet update that changes any of description,
domain_join_info, enable_default_internet_access, iam_role_arn,
instance_type, max_user_duration_in_seconds, stream_view or vpc_config
stops the fleet and waits for the stopped state before issuing
UpdateFleet, and after a successful UpdateFleet starts the fleet and
waits for the running state; an update touching only other fields never
stops (or starts) the fleet.  The stop condition is exactly the
disjunction of those eight changed-field flags. -/
theorem resourceFleetUpdate_stop_start (c : FleetChanges) (env : FleetUpdateEnv) :
    (shouldStopFleet c =
      (c.description || c.domainJoinInfo || c.enableDefaultInternetAccess ||
        c.iamRoleArn || c.instanceType || c.maxUserDurationInSeconds ||
        c.streamView || c.vpcConfig))
  ∧ (shouldStopFleet c = false →
      FleetCall.stopFleet ∉ (resourceFleetUpdate c env).1 ∧
      FleetCall.startFleet ∉ (resourceFleetUpdate c env).1)
  ∧ (shouldStopFleet c = true → env.stopOk = true → env.waitStoppedOk = true →
      List.take 3 (resourceFleetUpdate c env).1 =
          [FleetCall.stopFleet, FleetCall.waitStopped, FleetCall.updateFleet]
        ∧ (env.updateOk = true →
            List.take 4 (resourceFleetUpdate c env).1 =
                [FleetCall.stopFleet, FleetCall.waitStopped, FleetCall.updateFleet,
                  FleetCall.startFleet]
              ∧ (env.startOk = true →
                  (resourceFleetUpdate c env).1 =
                    [FleetCall.stopFleet, FleetCall.waitStopped, FleetCall.updateFleet,
                      FleetCall.startFleet, FleetCall.waitRunning]))) := by
  obtain ⟨stopOk, waitStoppedOk, updateOk, startOk, waitRunningOk⟩ := env
  refine ⟨rfl, ?_, ?_⟩
  · intro hstop
    cases updateOk <;> simp [resourceFleetUpdate, hstop]
  · intro hstop h1 h2
    subst h1; subst h2
    cases updateOk with
    | false => simp [resourceFleetUpdate, hstop]
    | true =>
      cases startOk with
      | false => simp [resourceFleetUpdate, hstop]
      | true =>
        cases waitRunningOk <;> simp [resourceFleetUpdate, hstop]

def c6Changes : FleetChanges :=
  ⟨false, false, false, false, true, false, false, false,
    false, false, false, false, false, false, false⟩

theorem resourceFleetUpdate_stop_start_witness :
    resourceFleetUpdate c6Changes ⟨true, true, true, true, true⟩ =
      ([FleetCall.stopFleet, FleetCall.waitStopped, FleetCall.updateFleet,
        FleetCall.startFleet, FleetCall.waitRunning], true) := by
  have h := ((resourceFleetUpdate_stop_start c6Changes
    ⟨true, true, true, true, true⟩).2.2 (by decide) rfl rfl).2 rfl
  exact Prod.ext (h.2 rfl) (by decide)

/-! ### Delete paths tolerating ResourceNotFoundException -/

/-- AWS error codes distinguished by the delete paths. -/
inductive AwsErr where
  | resourceNotFound
  | resourceInUse
  | otherCode (msg : String)
deriving DecidableEq, Repr

/-- Errors returned by the three remote calls of resourceFleetDelete:
StopFleet, waitFleetStateStopped and DeleteFleet (none means success). -/
structure FleetDeleteEnv where
  stopErr : Option AwsErr
  waitStoppedErr : Option AwsErr
  deleteErr : Option AwsErr
deriving DecidableEq, Repr

/-- Result of resourceFleetDelete: empty diagnostics, or the diagnostic
appended for the failing call. -/
inductive FleetDeleteResult where
  | okEmpty
  | errStop (e : AwsErr)
  | errWait (e : AwsErr)
  | errDelete (e : AwsErr)
deriving DecidableEq, Repr

/-- fleet.go lines 518-553: resourceFleetDelete.  StopFleet failing with
ResourceNotFoundException returns the empty diagnostics immediately; any
other StopFleet error is a diagnostic; then the wait for the stopped
state propagates its error; then DeleteFleet failing with
ResourceNotFoundException returns empty diagnostics and any other error
is a diagnostic. -/
def resourceFleetDelete (env : FleetDeleteEnv) : FleetDeleteResult :=
  match env.stopErr with
  | some .resourceNotFound => .okEmpty
  | some e => .errStop e
  | none =>
    match env.waitStoppedErr with
    | some e => .errWait e
    | none =>
      match env.deleteErr with
      | some .resourceNotFound => .okEmpty
      | some e => .errDelete e
      | none => .okEmpty

/-- certificate.go lines 428-448: resourceCertificateDelete.  The
argument is the error of the DeleteCertificate call (after the external
retry-while-ResourceInUse helper).  A ResourceNotFoundException code
yields nil; any other error is wrapped and returned; success yields
nil. -/
def resourceCertificateDelete (deleteErr : Option AwsErr) : Option AwsErr :=
  match deleteErr with
  | some .resourceNotFound => none
  | some e => some e
  | none => none

/-- Claim C9: deleting a resource that no longer exists succeeds.
resourceFleetDelete returns empty diagnostics when StopFleet or
DeleteFleet fails with ResourceNotFoundException, and
resourceCertificateDelete returns nil when DeleteCertificate fails with
ResourceNotFoundException; every other error from those calls is
propagated (as is any error of the intermediate wait for the stopped
state). -/
theorem delete_not_found_tolerated (waitE delE : Option AwsErr) (e : AwsErr)
    (he : e ≠ AwsErr.resourceNotFound) :
    resourceFleetDelete ⟨some .resourceNotFound, waitE, delE⟩ = .okEmpty
  ∧ resourceFleetDelete ⟨none, none, some .resourceNotFound⟩ = .okEmpty
  ∧ resourceFleetDelete ⟨some e, waitE, delE⟩ = .errStop e
  ∧ resourceFleetDelete ⟨none, some e, delE⟩ = .errWait e
  ∧ resourceFleetDelete ⟨none, none, some e⟩ = .errDelete e
  ∧ resourceCertificateDelete (some .resourceNotFound) = none
  ∧ resourceCertificateDelete (some e) = some e
  ∧ resourceCertificateDelete none = none := by
  cases e <;> simp_all [resourceFleetDelete, resourceCertificateDelete]

theorem delete_not_found_tolerated_witness :
    resourceFleetDelete ⟨some AwsErr.resourceInUse, none, none⟩ =
      FleetDeleteResult.errStop AwsErr.resourceInUse :=
  (delete_not_found_tolerated none none AwsErr.resourceInUse (by decide)).2.2.1

/-! ### ECS task-execution data source (internal/service/ecs/task_execution_data_source.go) -/

/-- task_execution_data_source.go line 286: the data-source ID is the
cluster name and the task-definition name joined with a comma. -/
def taskExecutionId (cluster taskDefinition : String) : String :=
  String.intercalate "," [cluster, taskDefinition]

/-- Result of the RunTask call. -/
inductive RunTaskResult where
  | apiErr (msg : String)
  | tasks (arns : List String)
deriving DecidableEq, Repr

/-- The inputs dataSourceTaskExecutionRead does not control: whether the
expansion of placement_constraints and placement_strategy succeeds, and
what RunTask returns. -/
structure TaskExecEnv where
  placementConstraintsOk : Bool
  placementStrategyOk : Bool
  runTask : RunTaskResult
deriving DecidableEq, Repr

/-- The possible outcomes of dataSourceTaskExecutionRead. -/
inductive TaskExecOutcome where
  | ok (taskArns : List String)
  | errConstraints
  | errStrategy
  | errRunTask (msg : String)
  | errEmptyResult
deriving DecidableEq, Repr

/-- task_execution_data_source.go lines 280-368: the read sets the ID
from cluster and task_definition first, then expands the optional
arguments (placement_constraints and placement_strategy may fail), then
calls RunTask; a RunTask error or an empty task list is a diagnostic,
otherwise the task ARNs are collected.  The first component is the
data-source ID as it stands when the function returns. -/
def dataSourceTaskExecutionRead (cluster taskDefinition : String)
    (env : TaskExecEnv) : Option String × TaskExecOutcome :=
  let id := taskExecutionId cluster taskDefinition
  if env.placementConstraintsOk = false then (some id, .errConstraints)
  else if env.placementStrategyOk = false then (some id, .errStrategy)
  else
    match env.runTask with
    | .apiErr m => (some id, .errRunTask m)
    | .tasks [] => (some id, .errEmptyResult)
    | .tasks arns => (some id, .ok arns)

/-- Claim C10: every read of the ECS task-execution data source sets the
data-source ID to the cluster name and the task-definition name joined by
a single comma, and does so before the RunTask call, so the ID has that
form in every outcome - including a RunTask error or an empty task
list. -/
theorem dataSourceTaskExecutionRead_id (cluster taskDefinition : String)
    (env : TaskExecEnv) :
    (dataSourceTaskExecutionRead cluster taskDefinition env).1 =
      some (cluster ++ "," ++ taskDefinition) := by
  have hid : taskExecutionId cluster taskDefinition = cluster ++ "," ++ taskDefinition := by
    simp [taskExecutionId, String.intercalate, String.intercalate.go]
  obtain ⟨pcOk, psOk, rt⟩ := env
  cases pcOk <;> cases psOk <;>
    rcases rt with m | (_ | ⟨a, rest⟩) <;>
      simp_all [dataSourceTaskExecutionRead]

/-! ### ACM certificate issuance wait (internal/service/acm/certificate.go) -/

/-- The ACM certificate status values. -/
inductive CertificateStatus where
  | pendingValidation
  | issued
  | inactive
  | expired
  | validationTimedOut
  | revoked
  | failed
deriving DecidableEq, Repr

/-- The fields of an ACM certificate the wait logic inspects. -/
structure CertificateDetail where
  status : CertificateStatus
  failureReason : String
  revocationReason : String
deriving DecidableEq, Repr

/-- What one DescribeCertificate round trip yields. -/
inductive DescribeResult where
  | notFound
  | apiErr (msg : String)
  | ok (cert : CertificateDetail)
deriving DecidableEq, Repr

/-- What the state-refresh function reports to the poll loop. -/
inductive RefreshOutput where
  | waiting
  | refreshFailed (msg : String)
  | state (cert : CertificateDetail) (status : CertificateStatus)
deriving DecidableEq, Repr

/-- certificate.go lines 619-638: statusCertificate.  A not-found
certificate reports the empty state so the loop keeps waiting, any other
error aborts the refresh, and otherwise the certificate is reported
together with its status. -/
def statusCertificate (r : DescribeResult) : RefreshOutput :=
  match r with
  | .notFound => .waiting
  | .apiErr m => .refreshFailed m
  | .ok cert => .state cert cert.status

/-- The configuration of the external StateChangeConf helper as built by
waitCertificateIssued: the pending states, the target states, and the
timeout. -/
structure StateChangeConf where
  pending : List CertificateStatus
  target : List CertificateStatus
  timeout : Nat
deriving DecidableEq, Repr

/-- The error component of the poll result: a timeout, an unexpected
terminal state, or a refresh failure; the first two carry the attachable
last-error slot that tfresource.SetLastError fills in. -/
inductive WaitErr where
  | timedOut (lastError : Option String)
  | unexpectedState (status : CertificateStatus) (lastError : Option String)
  | refreshFailed (msg : String)
deriving DecidableEq, Repr

/-- Modelled from the spec: the external StateChangeConf.WaitForState
helper, which is not implemented in this repository (the spec calls it an
external bounded polling loop).  Each poll consumes one unit of the
timeout; a state in the target list succeeds with the refreshed
certificate, a state in the pending list (or a still-missing resource)
keeps polling, any other state stops with an unexpected-state error
carrying that certificate, and an exhausted timeout stops with a timeout
error. -/
def waitForState (conf : StateChangeConf) (polls : Nat → DescribeResult) :
    Nat → Nat → Option CertificateDetail × Option WaitErr
  | 0, _ => (none, some (.timedOut none))
  | fuel + 1, k =>
    match statusCertificate (polls k) with
    | .waiting => waitForState conf polls fuel (k + 1)
    | .refreshFailed m => (none, some (.refreshFailed m))
    | .state cert status =>
      if conf.target.contains status then (some cert, none)
      else if conf.pending.contains status then waitForState conf polls fuel (k + 1)
      else (some cert, some (.unexpectedState status none))

/-- certificate.go lines 641-646: the StateChangeConf value built by
waitCertificateIssued - PENDING_VALIDATION is the only pending state and
ISSUED the only target state, with the caller-supplied timeout. -/
def waitCertificateIssuedConf (timeout : Nat) : StateChangeConf :=
  ⟨[CertificateStatus.pendingValidation], [CertificateStatus.issued], timeout⟩

/-- tfresource.SetLastError: attaches a cause to the error returned by
the wait helper when that error has a last-error slot. -/
def setLastError (e : Option WaitErr) (reason : String) : Option WaitErr :=
  match e with
  | some (.timedOut _) => some (.timedOut (some reason))
  | some (.unexpectedState s _) => some (.unexpectedState s (some reason))
  | other => other

/-- certificate.go lines 640-662: waitCertificateIssued.  Runs the poll
loop with the configuration above; when the final value is a certificate
whose status is FAILED the failure reason is attached to the returned
error, when it is REVOKED the revocation reason is attached; the
certificate and the error are then returned as is. -/
def waitCertificateIssued (polls : Nat → DescribeResult) (timeout : Nat) :
    Option CertificateDetail × Option WaitErr :=
  let conf := waitCertificateIssuedConf timeout
  match waitForState conf polls conf.timeout 0 with
  | (some cert, err) =>
    match cert.status with
    | .failed => (some cert, setLastError err cert.failureReason)
    | .revoked => (some cert, setLastError err cert.revocationReason)
    | _ => (some cert, err)
  | (none, err) => (none, err)

lemma waitForState_pending_run (timeout : Nat) (polls : Nat → DescribeResult)
    (pend : Nat → CertificateDetail) (c : CertificateDetail)
    (hc : c.status ≠ CertificateStatus.pendingValidation) :
    ∀ k fuel idx, k < fuel →
      (∀ j, j < k → polls (idx + j) = .ok (pend (idx + j)) ∧
        (pend (idx + j)).status = .pendingValidation) →
      polls (idx + k) = .ok c →
      waitForState (waitCertificateIssuedConf timeout) polls fuel idx =
        if c.status = CertificateStatus.issued then (some c, none)
        else (some c, some (.unexpectedState c.status none)) := by
  intro k
  induction k with
  | zero =>
    intro fuel idx hk _ hpoll
    obtain ⟨f, rfl⟩ : ∃ f, fuel = f + 1 := ⟨fuel - 1, by omega⟩
    rw [show idx + 0 = idx by omega] at hpoll
    by_cases hiss : c.status = CertificateStatus.issued
    · simp [waitForState, statusCertificate, hpoll, waitCertificateIssuedConf, hiss]
    · simp [waitForState, statusCertificate, hpoll, waitCertificateIssuedConf, hiss, hc]
  | succ k ih =>
    intro fuel idx hk hpend hpoll
    obtain ⟨f, rfl⟩ : ∃ f, fuel = f + 1 := ⟨fuel - 1, by omega⟩
    obtain ⟨hp0, hs0⟩ := by
      have := hpend 0 (Nat.succ_pos k)
      rwa [show idx + 0 = idx by omega] at this
    have hrec := ih f (idx + 1) (by omega)
      (fun j hj => by
        have := hpend (j + 1) (by omega)
        rwa [show idx + (j + 1) = idx + 1 + j by omega] at this)
      (by rwa [show idx + (k + 1) = idx + 1 + k by omega] at hpoll)
    simp only [waitForState, statusCertificate, hp0, hs0, waitCertificateIssuedConf]
    simpa [waitCertificateIssuedConf] using hrec

/-- Claim C7: waitCertificateIssued polls the certificate status with
PENDING_VALIDATION as the only pending state and ISSUED as the only
target state, within the given bounded timeout; on a run of pending
polls followed by a poll whose status left PENDING_VALIDATION, it
returns the certificate without error when that status is ISSUED, and
when the final status is FAILED (resp. REVOKED) it attaches the
certificate failure reason (resp. revocation reason) to the returned
error. -/
theorem waitCertificateIssued_claim (timeout k : Nat)
    (polls : Nat → DescribeResult) (pend : Nat → CertificateDetail)
    (c : CertificateDetail)
    (hk : k < timeout)
    (hpend : ∀ j, j < k → polls j = .ok (pend j) ∧
      (pend j).status = CertificateStatus.pendingValidation)
    (hpoll : polls k = .ok c) :
    ((waitCertificateIssuedConf timeout).pending = [CertificateStatus.pendingValidation]
      ∧ (waitCertificateIssuedConf timeout).target = [CertificateStatus.issued])
  ∧ (c.status = CertificateStatus.issued →
      waitCertificateIssued polls timeout = (some c, none))
  ∧ (c.status = CertificateStatus.failed →
      waitCertificateIssued polls timeout =
        (some c, some (.unexpectedState CertificateStatus.failed (some c.failureReason))))
  ∧ (c.status = CertificateStatus.revoked →
      waitCertificateIssued polls timeout =
        (some c, some (.unexpectedState CertificateStatus.revoked
          (some c.revocationReason)))) := by
  refine ⟨⟨rfl, rfl⟩, ?_, ?_, ?_⟩
  · intro hiss
    have hrun := waitForState_pending_run timeout polls pend c (by simp [hiss]) k timeout 0 hk
      (fun j hj => by simpa using hpend j hj) (by simpa using hpoll)
    simp [waitCertificateIssued, waitCertificateIssuedConf] at hrun ⊢
    rw [hrun]
    simp [hiss]
  · intro hfail
    have hrun := waitForState_pending_run timeout polls pend c (by simp [hfail]) k timeout 0 hk
      (fun j hj => by simpa using hpend j hj) (by simpa using hpoll)
    simp [waitCertificateIssued, waitCertificateIssuedConf] at hrun ⊢
    rw [hrun]
    simp [hfail, setLastError]
  · intro hrev
    have hrun := waitForState_pending_run timeout polls pend c (by simp [hrev]) k timeout 0 hk
      (fun j hj => by simpa using hpend j hj) (by simpa using hpoll)
    simp [waitCertificateIssued, waitCertificateIssuedConf] at hrun ⊢
    rw [hrun]
    simp [hrev, setLastError]

def c7PendingCert : CertificateDetail := ⟨.pendingValidation, "", ""⟩

def c7IssuedCert : CertificateDetail := ⟨.issued, "", ""⟩

def c7Polls : Nat → DescribeResult := fun j =>
  if j = 0 then .ok c7PendingCert else .ok c7IssuedCert

theorem waitCertificateIssued_claim_witness :
    waitCertificateIssued c7Polls 3 = (some c7IssuedCert, none) :=
  (waitCertificateIssued_claim 3 1 c7Polls (fun _ => c7PendingCert) c7IssuedCert
    (by decide)
    (fun j hj => by
      match j, hj with
      | 0, _ => exact ⟨by decide, by decide⟩)
    (by decide)).2.1 (by decide)

/-! ### isChangeNormalizeCertRemoval (internal/service/acm/certificate.go)

The pre-3.0.0 provider stored certificate_body, certificate_chain and
private_key as SHA-1 hashes; isChangeNormalizeCertRemoval detects the
diff that merely replaces such a hash by the normalized plain value.  The
SHA-1 implementation below is executable and is checked against standard
test vectors. -/

/-- 32-bit left rotation. -/
def rotl32 (n x : Nat) : Nat :=
  ((x <<< n) ||| (x >>> (32 - n))) % 4294967296

/-- Big-endian byte expansion of a number into `k` bytes. -/
def beBytes : Nat → Nat → List Nat
  | 0, _ => []
  | k + 1, n => beBytes k (n / 256) ++ [n % 256]

/-- A 32-bit word from four big-endian bytes. -/
def beWord (b0 b1 b2 b3 : Nat) : Nat :=
  ((b0 * 256 + b1) * 256 + b2) * 256 + b3

/-- SHA-1 message padding: a 0x80 byte, zeros, and the 64-bit big-endian
bit length, up to a multiple of 64 bytes. -/
def sha1Pad (msg : List Nat) : List Nat :=
  msg ++ [128] ++ List.replicate ((119 - msg.length % 64) % 64) 0 ++
    beBytes 8 (8 * msg.length)

def chunks64Go : Nat → List Nat → List (List Nat)
  | 0, _ => []
  | _, [] => []
  | fuel + 1, l => l.take 64 :: chunks64Go fuel (l.drop 64)

/-- A byte list cut into 64-byte blocks. -/
def chunks64 (l : List Nat) : List (List Nat) :=
  chunks64Go l.length l

/-- The sixteen 32-bit words of one 64-byte block. -/
def blockWords : List Nat → List Nat
  | b0 :: b1 :: b2 :: b3 :: rest => beWord b0 b1 b2 b3 :: blockWords rest
  | _ => []

/-- The SHA-1 round function, per round group. -/
def sha1F (t b c d : Nat) : Nat :=
  if t < 20 then (b &&& c) ||| ((b ^^^ 4294967295) &&& d)
  else if t < 40 then b ^^^ c ^^^ d
  else if t < 60 then (b &&& c) ||| (b &&& d) ||| (c &&& d)
  else b ^^^ c ^^^ d

/-- The SHA-1 round constants, per round group. -/
def sha1K (t : Nat) : Nat :=
  if t < 20 then 1518500249
  else if t < 40 then 1859775393
  else if t < 60 then 2400959708
  else 3395469782

/-- The five working registers of SHA-1. -/
structure Sha1Regs where
  a : Nat
  b : Nat
  c : Nat
  d : Nat
  e : Nat
deriving DecidableEq, Repr

/-- One SHA-1 round with schedule word `wt` at round index `t`. -/
def sha1Round (wt t : Nat) (s : Sha1Regs) : Sha1Regs :=
  ⟨(rotl32 5 s.a + sha1F t s.b s.c s.d + s.e + sha1K t + wt) % 4294967296,
    s.a, rotl32 30 s.b, s.c, s.d⟩

/-- The 80 SHA-1 rounds of one block.  `pending` holds the block words not
yet consumed and `window` the last sixteen schedule words, newest first,
from which later schedule words are generated. -/
def sha1Loop : Nat → Nat → List Nat → List Nat → Sha1Regs → Sha1Regs
  | 0, _, _, _, s => s
  | fuel + 1, t, pending, window, s =>
    let wt := match pending with
      | w :: _ => w
      | [] => rotl32 1 (window.getD 2 0 ^^^ window.getD 7 0 ^^^
          window.getD 13 0 ^^^ window.getD 15 0)
    sha1Loop fuel (t + 1) (pending.drop 1) (List.take 16 (wt :: window))
      (sha1Round wt t s)

/-- The SHA-1 chaining state. -/
structure Sha1State where
  h0 : Nat
  h1 : Nat
  h2 : Nat
  h3 : Nat
  h4 : Nat
deriving DecidableEq, Repr

/-- The SHA-1 initialization vector. -/
def sha1Init : Sha1State := ⟨1732584193, 4023233417, 2562383102, 271733878, 3285377520⟩

/-- SHA-1 compression of one 64-byte block into the chaining state. -/
def sha1ProcessBlock (st : Sha1State) (block : List Nat) : Sha1State :=
  let r := sha1Loop 80 0 (blockWords block) [] ⟨st.h0, st.h1, st.h2, st.h3, st.h4⟩
  ⟨(st.h0 + r.a) % 4294967296, (st.h1 + r.b) % 4294967296, (st.h2 + r.c) % 4294967296,
    (st.h3 + r.d) % 4294967296, (st.h4 + r.e) % 4294967296⟩

/-- The SHA-1 digest (20 bytes) of a byte list; crypto/sha1 Sum. -/
def sha1Bytes (msg : List Nat) : List Nat :=
  let fin := (chunks64 (sha1Pad msg)).foldl sha1ProcessBlock sha1Init
  beBytes 4 fin.h0 ++ beBytes 4 fin.h1 ++ beBytes 4 fin.h2 ++
    beBytes 4 fin.h3 ++ beBytes 4 fin.h4

/-- Lowercase hexadecimal digit. -/
def hexDigit (n : Nat) : Char :=
  if n < 10 then Char.ofNat (48 + n) else Char.ofNat (87 + n)

/-- encoding/hex EncodeToString: lowercase hexadecimal of a byte list. -/
def hexEncode (bytes : List Nat) : String :=
  String.mk (bytes.foldr (fun b acc => hexDigit (b / 16) :: hexDigit (b % 16) :: acc) [])

/-- UTF-8 encoding of one character. -/
def utf8EncodeChar (c : Char) : List Nat :=
  let n := c.toNat
  if n < 128 then [n]
  else if n < 2048 then [192 + n / 64, 128 + n % 64]
  else if n < 65536 then [224 + n / 4096, 128 + (n / 64) % 64, 128 + n % 64]
  else [240 + n / 262144, 128 + (n / 4096) % 64, 128 + (n / 64) % 64, 128 + n % 64]

/-- The UTF-8 bytes of a string; the Go []byte conversion. -/
def strBytes (s : String) : List Nat :=
  s.data.foldr (fun c acc => utf8EncodeChar c ++ acc) []

/-- unicode.IsSpace: the Unicode white-space runes. -/
def isSpaceRune (c : Char) : Bool :=
  let n := c.toNat
  (9 ≤ n && n ≤ 13) || n = 32 || n = 133 || n = 160 || n = 5760 ||
    (8192 ≤ n && n ≤ 8202) || n = 8232 || n = 8233 || n = 8239 || n = 8287 || n = 12288

/-- strings.TrimSpace: drops leading and trailing white-space runes. -/
def trimSpace (s : String) : String :=
  String.mk (((s.data.dropWhile isSpaceRune).reverse.dropWhile isSpaceRune).reverse)

/-- certificate.go lines 565-575: stripCR removes every carriage-return
byte. -/
def stripCR (b : List Nat) : List Nat :=
  b.filter (fun ch => ch ≠ 13)

/-- A Go interface value as seen by isChangeNormalizeCertRemoval: a
string, or any non-string value (whose type assertion to string fails). -/
inductive GoValue where
  | str (s : String)
  | nonString
deriving DecidableEq, Repr

/-- certificate.go lines 546-561: isChangeNormalizeCertRemoval.  Both
arguments must be strings; the new value is trimmed, converted to bytes,
stripped of carriage returns, hashed with SHA-1, hex-encoded, and
compared with the old value. -/
def isChangeNormalizeCertRemoval (oldRaw newRaw : GoValue) : Bool :=
  match oldRaw with
  | .nonString => false
  | .str old =>
    match newRaw with
    | .nonString => false
    | .str new => hexEncode (sha1Bytes (stripCR (strBytes (trimSpace new)))) == old

set_option maxRecDepth 10000 in
/-- SHA-1 standard test vector, evaluated through the kernel: evidence
that the embedded digest is the real SHA-1. -/
lemma sha1_known_answer_abc :
    hexEncode (sha1Bytes (strBytes "abc")) =
      "a9993e364706816aba3e25717850c26c9cd0d89d" := by decide

set_option maxRecDepth 10000 in
/-- SHA-1 of the empty message, the digest of an empty certificate
body. -/
lemma sha1_known_answer_empty :
    hexEncode (sha1Bytes (strBytes "")) =
      "da39a3ee5e6b4b0d3255bfef95601890afd80709" := by decide

set_option maxRecDepth 10000 in
/-- A concrete normalization-removal diff: the old state holds the SHA-1
of the trimmed, CR-stripped new value, so the change is recognized. -/
lemma isChangeNormalizeCertRemoval_example :
    isChangeNormalizeCertRemoval
      (GoValue.str "8c2dfa8f32fb0ee305ae7c0ee34cee1f64808417")
      (GoValue.str "  hi\rthere\r\n") = true := by decide

/-- Claim C8: isChangeNormalizeCertRemoval returns true exactly when both
arguments are strings and the old value equals the lowercase hex encoding
of the SHA-1 digest of the new value after trimming leading and trailing
white space and removing every carriage-return byte; in particular it is
false whenever either argument is not a string. -/
theorem isChangeNormalizeCertRemoval_iff (oldRaw newRaw : GoValue) :
    isChangeNormalizeCertRemoval oldRaw newRaw = true ↔
      ∃ os ns, oldRaw = GoValue.str os ∧ newRaw = GoValue.str ns ∧
        os = hexEncode (sha1Bytes (stripCR (strBytes (trimSpace ns)))) := by
  cases oldRaw with
  | nonString => simp [isChangeNormalizeCertRemoval]
  | str os =>
    cases newRaw with
    | nonString => simp [isChangeNormalizeCertRemoval]
    | str ns =>
      simp only [isChangeNormalizeCertRemoval, beq_iff_eq, GoValue.str.injEq]
      constructor
      · intro h
        exact ⟨os, ns, rfl, rfl, h.symm⟩
      · rintro ⟨os2, ns2, h1, h2, h3⟩
        subst h1
        subst h2
        exact h3.symm

end TfAws
